import Mathlib

/-
Verification of the slack-purge job engine (`src/app.py`) against its
specification.  The Python source is shallowly embedded: Slack API traffic
is supplied as explicit response data, timestamps (Slack `ts` strings,
decimal numbers with microsecond precision) are modelled as rationals, and
the stateful purge loop is modelled as the trace of job mutations and
external effects it performs.
-/

namespace SlackPurge

/-- Batch size for paginated Slack calls (`BATCH_SIZE = 200` in app.py). -/
def BATCH_SIZE : Nat := 200

/-- Default retry budget of `slack_request` (`retries: int = 3`). -/
def slack_request_default_retries : Nat := 3

/-- A raw Slack message as returned by `conversations.history` or
`conversations.replies`.  A missing `subtype` or `user` is the empty
string; `ts` is the message identifier, unique key and numeric time. -/
structure SlackMsg where
  ts : ℚ
  user : String
  text : String
  subtype : String
  reply_count : Nat
  thread_ts : Option ℚ
deriving DecidableEq

/-- A collected message, as built by `fetch_user_messages_api`. -/
structure Message where
  ts : ℚ
  text : String
  thread_ts : Option ℚ
  is_thread_reply : Bool
deriving DecidableEq

/-- One page of a paginated Slack response: the `ok` flag, the `messages`
payload, and whether `response_metadata.next_cursor` is non-empty. -/
structure Page where
  ok : Bool
  messages : List SlackMsg
  next_cursor : Bool
deriving DecidableEq

/-- The mutable state of `fetch_user_messages_api`: collected
`user_messages`, the `thread_parents` set (a Python `set`, modelled as an
insertion-ordered duplicate-free list) and the `seen_ts` set (modelled
likewise; only membership is ever queried). -/
structure CollSt where
  user_messages : List Message
  thread_parents : List ℚ
  seen_ts : List ℚ
deriving DecidableEq

/-- The initial collector state (app.py 383-385). -/
def init_coll_st : CollSt := ⟨[], [], []⟩

/-- The system subtypes skipped by the history phase (app.py 413-414). -/
def system_subtypes : List String :=
  ["channel_join", "channel_leave", "channel_topic", "channel_purpose", "bot_message"]

/-- Python `set.add`: append the element if it is not already present. -/
def set_add (l : List ℚ) (x : ℚ) : List ℚ := if x ∈ l then l else l ++ [x]

/-- Processing of one history-page message (app.py 403-423): record thread
parents from `reply_count` and `thread_ts`, then collect the message when
it is authored by `user_id`, unseen, and not a system subtype. -/
def hist_step (user_id : String) (st : CollSt) (m : SlackMsg) : CollSt :=
  let parents :=
    let p1 := if m.reply_count > 0 then set_add st.thread_parents m.ts
              else st.thread_parents
    match m.thread_ts with
    | some t => if t ≠ m.ts then set_add p1 t else p1
    | none => p1
  if m.user = user_id ∧ m.ts ∉ st.seen_ts then
    if m.subtype ∈ system_subtypes then
      { st with thread_parents := parents }
    else
      { st with
        thread_parents := parents,
        seen_ts := st.seen_ts ++ [m.ts],
        user_messages := st.user_messages ++
          [{ ts := m.ts, text := m.text.take 100, thread_ts := m.thread_ts,
             is_thread_reply := m.thread_ts.isSome && decide (m.thread_ts ≠ some m.ts) }] }
  else { st with thread_parents := parents }

/-- The history pagination loop (app.py 389-428).  `hist` lists the
successive `conversations.history` responses; a page with `ok = false`
makes the whole collector return the empty list (`return []`), modelled as
`none`; a page without `next_cursor` ends the loop. -/
def hist_loop (user_id : String) : CollSt → List Page → Option CollSt
  | st, [] => some st
  | st, p :: rest =>
    if p.ok then
      let st' := p.messages.foldl (hist_step user_id) st
      if p.next_cursor then hist_loop user_id st' rest else some st'
    else none

/-- `float(ts) < float(oldest)` guarded by `if oldest:` (app.py 448). -/
def below_oldest (oldest : Option ℚ) (ts : ℚ) : Bool :=
  match oldest with
  | some o => decide (ts < o)
  | none => false

/-- `float(ts) > float(latest)` guarded by `if latest:` (app.py 450). -/
def above_latest (latest : Option ℚ) (ts : ℚ) : Bool :=
  match latest with
  | some l => decide (l < ts)
  | none => false

/-- Processing of one reply message in the threads phase (app.py 442-459):
skip the root entry itself, anything already seen, messages by other
authors, and anything outside the time window; otherwise collect the
message with the iterated root as its `thread_ts`. -/
def thread_step (user_id : String) (oldest latest : Option ℚ) (thread_ts : ℚ)
    (st : CollSt) (m : SlackMsg) : CollSt :=
  if m.ts = thread_ts ∨ m.ts ∈ st.seen_ts then st
  else if m.user ≠ user_id then st
  else if below_oldest oldest m.ts then st
  else if above_latest latest m.ts then st
  else
    { st with
      seen_ts := st.seen_ts ++ [m.ts],
      user_messages := st.user_messages ++
        [{ ts := m.ts, text := m.text.take 100, thread_ts := some thread_ts,
           is_thread_reply := true }] }

/-- The replies pagination loop for one thread root (app.py 431-464); a
failed page stops only this thread (`break`), keeping the state built so
far. -/
def thread_loop (user_id : String) (oldest latest : Option ℚ) (thread_ts : ℚ) :
    CollSt → List Page → CollSt
  | st, [] => st
  | st, p :: rest =>
    if p.ok then
      let st' := p.messages.foldl (thread_step user_id oldest latest thread_ts) st
      if p.next_cursor then thread_loop user_id oldest latest thread_ts st' rest
      else st'
    else st

/-- `fetch_user_messages_api` (app.py 380-466).  `hist` is the stream of
`conversations.history` responses for this conversation and `threads t`
the stream of `conversations.replies` responses for root `t`.  Python
iterates the `thread_parents` set in unspecified order; the model fixes
insertion order. -/
def fetch_user_messages_api (user_id : String) (oldest latest : Option ℚ)
    (hist : List Page) (threads : ℚ → List Page) : List Message :=
  match hist_loop user_id init_coll_st hist with
  | none => []
  | some st =>
    (st.thread_parents.foldl
      (fun s t => thread_loop user_id oldest latest t s (threads t)) st).user_messages

/-- The request parameters built for one `conversations.history` page
(app.py 390-397): `oldest` and `latest` are sent when given, and
`inclusive = "true"` is sent exactly when `latest` is given. -/
structure HistoryParams where
  channel : String
  limit : Nat
  oldest : Option ℚ
  latest : Option ℚ
  inclusive : Bool
  cursor : Option String
deriving DecidableEq

/-- Construction of the history-page parameters (app.py 390-397). -/
def history_params (channel_id : String) (oldest latest : Option ℚ)
    (cursor : Option String) : HistoryParams :=
  { channel := channel_id, limit := BATCH_SIZE, oldest := oldest,
    latest := latest, inclusive := latest.isSome, cursor := cursor }

/-- The outcome of one attempt inside `slack_request` (app.py 54-71):
either the parsed JSON envelope of a 2xx response (`ok`, `error`, and the
response's `Retry-After` header when present), or an `HTTPError` with its
status code, `Retry-After` header and string rendering. -/
inductive Attempt where
  | envelope (ok : Bool) (error : String) (retry_after : Option Nat)
  | http_error (code : Nat) (retry_after : Option Nat) (msg : String)
deriving DecidableEq

/-- The value `slack_request` returns: the successful envelope, or a
`{"ok": False, "error": e}` failure. -/
inductive ReqResult where
  | success
  | failure (error : String)
deriving DecidableEq

/-- The wait duration a rate-limit signal carries: `some` of the
`Retry-After` header (default 30) for an in-band `ratelimited` error or a
transport-level 429, `none` for every other outcome. -/
def rate_limit_wait : Attempt → Option Nat
  | .envelope true _ _ => none
  | .envelope false e ra => if e = "ratelimited" then some (ra.getD 30) else none
  | .http_error c ra _ => if c = 429 then some (ra.getD 30) else none

/-- The retry loop of `slack_request` (app.py 54-73): attempt `k` receives
`env k`; the result is returned together with the list of `time.sleep`
durations performed, in order. -/
def slack_request_loop (env : Nat → Attempt) : Nat → Nat → ReqResult × List Nat
  | _, 0 => (.failure "max_retries", [])
  | k, n + 1 =>
    match env k with
    | .envelope true _ _ => (.success, [])
    | .envelope false e ra =>
      if e = "ratelimited" then
        let r := slack_request_loop env (k + 1) n
        (r.1, ra.getD 30 :: r.2)
      else (.failure e, [])
    | .http_error c ra msg =>
      if c = 429 then
        let r := slack_request_loop env (k + 1) n
        (r.1, ra.getD 30 :: r.2)
      else (.failure msg, [])

/-- `slack_request` (app.py 45-73), abstracted over the method, token and
parameters (which do not influence the retry control flow). -/
def slack_request (env : Nat → Attempt) (retries : Nat) : ReqResult × List Nat :=
  slack_request_loop env 0 retries

/-- One entry of a job's log: wall-clock time and message text.  The
`time` field (`datetime.now().strftime("%H:%M:%S")`) is ambient state no
claim inspects; it is modelled as the constant `""`. -/
structure LogEntry where
  time : String
  message : String
deriving DecidableEq

/-- A job record of `purge_jobs` (app.py 271-282). -/
structure Job where
  status : String
  progress : Nat
  total_conversations : Nat
  current_conversation : String
  messages_found : Nat
  messages_deleted : Nat
  errors : Nat
  dry_run : Bool
  log : List LogEntry
  started_at : String
deriving DecidableEq

/-- The fresh job record created by `api_purge` (app.py 271-282). -/
def init_job (dry_run : Bool) : Job :=
  { status := "running", progress := 0, total_conversations := 0,
    current_conversation := "", messages_found := 0, messages_deleted := 0,
    errors := 0, dry_run := dry_run, log := [], started_at := "" }

/-- `add_log` (app.py 469-477): append one entry, then keep only the last
500 entries (`job["log"][-500:]`). -/
def add_log (job : Job) (message : String) : Job :=
  let log := job.log ++ [{ time := "", message := message }]
  { job with log := if log.length > 500 then log.drop (log.length - 500) else log }

/-- One atomic step of `run_purge`: either a mutation of the job record or
an external effect (a `chat.delete` call, or the fixed delete-pacing
`time.sleep(RATE_LIMIT_DELETE)`). -/
inductive Act where
  | setTotal (n : Nat)
  | setProgress (n : Nat)
  | setCurrent (s : String)
  | incFound (n : Nat)
  | incDeleted
  | incErrors
  | appendLog (m : String)
  | setStatus (s : String)
  | deleteCall (channel : String) (ts : ℚ)
  | sleepDelete
deriving DecidableEq

/-- How each act mutates the job record; the two external effects leave it
unchanged. -/
def apply_act (job : Job) : Act → Job
  | .setTotal n => { job with total_conversations := n }
  | .setProgress n => { job with progress := n }
  | .setCurrent s => { job with current_conversation := s }
  | .incFound n => { job with messages_found := job.messages_found + n }
  | .incDeleted => { job with messages_deleted := job.messages_deleted + 1 }
  | .incErrors => { job with errors := job.errors + 1 }
  | .appendLog m => add_log job m
  | .setStatus s => { job with status := s }
  | .deleteCall _ _ => job
  | .sleepDelete => job

/-- The outcome of one `chat.delete` call: `ok`, or a failure with its
error code. -/
inductive DeleteOutcome where
  | ok
  | err (code : String)
deriving DecidableEq

/-- The per-message body of `run_purge`'s delete loop (app.py 348-367), as
the trace of acts it performs.  `fmt_time` models
`datetime.fromtimestamp(float(ts)).strftime("%H:%M")`; `delete_result`
models the `chat.delete` call for a channel and timestamp. -/
def purge_message (dry_run : Bool) (delete_result : String → ℚ → DeleteOutcome)
    (fmt_time : ℚ → String) (ch_id : String) (msg : Message) : List Act :=
  let text := (msg.text.take 60).replace "\n" " "
  let msg_time := fmt_time msg.ts
  let thread_tag := if msg.is_thread_reply then " ↩" else ""
  if dry_run then
    [.incDeleted, .appendLog ("  👀 [" ++ msg_time ++ "]" ++ thread_tag ++ " " ++ text)]
  else
    (match delete_result ch_id msg.ts with
     | .ok =>
       [.deleteCall ch_id msg.ts, .incDeleted,
        .appendLog ("  ✅ [" ++ msg_time ++ "]" ++ thread_tag ++ " " ++ text)]
     | .err code =>
       [.deleteCall ch_id msg.ts, .incErrors,
        .appendLog ("  ❌ " ++ code ++ " [" ++ msg_time ++ "] " ++ text)]) ++
    [.sleepDelete]

/-- A conversation as enumerated by `run_purge` (app.py 314-319). -/
structure Conv where
  id : String
  name : String
deriving DecidableEq

/-- One iteration of the conversation loop of `run_purge` (app.py
332-367), given the messages the collector returned. -/
def purge_conversation (dry_run : Bool) (delete_result : String → ℚ → DeleteOutcome)
    (fmt_time : ℚ → String) (i : Nat) (conv : Conv) (msgs : List Message) : List Act :=
  [.setProgress (i + 1), .setCurrent conv.name] ++
  if msgs.isEmpty then []
  else
    [.appendLog ((if dry_run then "🔍" else "🗑️") ++ " " ++ conv.name ++ ": " ++
        toString msgs.length ++ " mensagens"),
     .incFound msgs.length] ++
    (msgs.map (purge_message dry_run delete_result fmt_time conv.id)).flatten

/-- The channel-filter step of `run_purge` (app.py 325-326): an empty
`filter_channels` list is falsy and keeps every conversation. -/
def filtered_convs (conversations : List Conv) (filter_channels : List String) :
    List Conv :=
  if filter_channels.isEmpty then conversations
  else conversations.filter (fun c => c.id ∈ filter_channels)

/-- Everything `run_purge` does before the terminal transition (app.py
300-367): the start marker, the channel filter, `total_conversations`,
the count line, and the per-conversation loop.  Conversation enumeration
is supplied as data; per-conversation messages come from
`fetch_user_messages_api` over the supplied response streams. -/
def run_purge_body (user_id : String) (oldest latest : Option ℚ) (dry_run : Bool)
    (conversations : List Conv) (filter_channels : List String)
    (hist : String → List Page) (threads : String → ℚ → List Page)
    (delete_result : String → ℚ → DeleteOutcome) (fmt_time : ℚ → String) : List Act :=
  [.appendLog "📡 Buscando conversas...",
   .setTotal (filtered_convs conversations filter_channels).length,
   .appendLog ("📋 " ++ toString (filtered_convs conversations filter_channels).length ++
     " conversas para varrer")] ++
  ((filtered_convs conversations filter_channels).enum.map (fun p =>
      purge_conversation dry_run delete_result fmt_time p.1 p.2
        (fetch_user_messages_api user_id oldest latest (hist p.2.id)
          (threads p.2.id)))).flatten

/-- The final summary line of `run_purge` (app.py 372-373), interpolating
the job's final `messages_deleted` and `errors` counters. -/
def run_purge_summary (dry_run : Bool) (deleted errs : Nat) : String :=
  "✅ " ++ (if dry_run then "DRY RUN" else "PURGE") ++ " concluído: " ++
  toString deleted ++ " mensagens " ++
  (if dry_run then "encontradas" else "deletadas") ++ ", " ++
  toString errs ++ " erros"

/-- The full trace of `run_purge`'s successful path (app.py 295-373): the
body, then `status = "completed"`, then the final summary log line. -/
def run_purge_acts (user_id : String) (oldest latest : Option ℚ) (dry_run : Bool)
    (conversations : List Conv) (filter_channels : List String)
    (hist : String → List Page) (threads : String → ℚ → List Page)
    (delete_result : String → ℚ → DeleteOutcome) (fmt_time : ℚ → String) : List Act :=
  run_purge_body user_id oldest latest dry_run conversations filter_channels
      hist threads delete_result fmt_time ++
    [.setStatus "completed",
     .appendLog (run_purge_summary dry_run
        ((run_purge_body user_id oldest latest dry_run conversations filter_channels
            hist threads delete_result fmt_time).count Act.incDeleted)
        ((run_purge_body user_id oldest latest dry_run conversations filter_channels
            hist threads delete_result fmt_time).count Act.incErrors))]

/-- The fatal-error log line of `run_purge`'s except branch (app.py 377). -/
def run_purge_fatal (e : String) : String := "💥 Erro fatal: " ++ e

/-- The trace of a `run_purge` interrupted by an unexpected exception
(app.py 375-377): the mutations performed before the exception — a prefix
of the body trace, the interruption point `k` being arbitrary — followed
by the terminal `status := "error"` transition and the fatal log append. -/
def run_purge_error_acts (user_id : String) (oldest latest : Option ℚ) (dry_run : Bool)
    (conversations : List Conv) (filter_channels : List String)
    (hist : String → List Page) (threads : String → ℚ → List Page)
    (delete_result : String → ℚ → DeleteOutcome) (fmt_time : ℚ → String)
    (k : Nat) (e : String) : List Act :=
  (run_purge_body user_id oldest latest dry_run conversations filter_channels
      hist threads delete_result fmt_time).take k ++
    [.setStatus "error", .appendLog (run_purge_fatal e)]

/-- The job record at the end of a successful `run_purge`, obtained by
applying the trace to the fresh job. -/
def run_purge_final (user_id : String) (oldest latest : Option ℚ) (dry_run : Bool)
    (conversations : List Conv) (filter_channels : List String)
    (hist : String → List Page) (threads : String → ℚ → List Page)
    (delete_result : String → ℚ → DeleteOutcome) (fmt_time : ℚ → String) : Job :=
  (run_purge_acts user_id oldest latest dry_run conversations filter_channels
      hist threads delete_result fmt_time).foldl apply_act (init_job dry_run)

/-- Python list slicing `l[i:]` for an arbitrary integer start index. -/
def py_slice_from {α : Type} (l : List α) (i : Int) : List α :=
  if 0 ≤ i then l.drop i.toNat else l.drop (l.length - (-i).toNat)

/-- The JSON body `api_purge_status` returns for an existing job
(app.py 490-500). -/
structure StatusSnapshot where
  status : String
  progress : Nat
  total_conversations : Nat
  current_conversation : String
  messages_found : Nat
  messages_deleted : Nat
  errors : Nat
  dry_run : Bool
  log : List LogEntry
deriving DecidableEq

/-- `api_purge_status` (app.py 482-500): look the job up (a missing id is
the 404 response, modelled as `none`), read the integer `last_log` query
parameter (default 50), and return the snapshot whose `log` is
`job["log"][-last_n:]`. -/
def api_purge_status (jobs : List (String × Job)) (job_id : String)
    (last_log : Option Int) : Option StatusSnapshot :=
  match jobs.lookup job_id with
  | none => none
  | some job =>
    let last_n := last_log.getD 50
    some { status := job.status, progress := job.progress,
           total_conversations := job.total_conversations,
           current_conversation := job.current_conversation,
           messages_found := job.messages_found,
           messages_deleted := job.messages_deleted,
           errors := job.errors, dry_run := job.dry_run,
           log := py_slice_from job.log (-last_n) }

/-- The deduplication invariant of the collector state: collected
identifiers are pairwise distinct and every collected identifier is
recorded in `seen_ts`. -/
def coll_inv (st : CollSt) : Prop :=
  (st.user_messages.map Message.ts).Nodup ∧
  ∀ m ∈ st.user_messages, m.ts ∈ st.seen_ts

lemma coll_inv_append (ums : List Message) (seen parents : List ℚ) (msg : Message)
    (hnd : (ums.map Message.ts).Nodup) (hmem : ∀ m ∈ ums, m.ts ∈ seen)
    (hnew : msg.ts ∉ seen) :
    coll_inv ⟨ums ++ [msg], parents, seen ++ [msg.ts]⟩ := by
  constructor
  · rw [List.map_append, List.nodup_append]
    refine ⟨hnd, List.nodup_singleton _, ?_⟩
    intro a ha hb
    simp only [List.map_cons, List.map_nil, List.mem_singleton] at hb
    subst hb
    obtain ⟨m, hm, hts⟩ := List.mem_map.mp ha
    exact hnew (hts ▸ hmem m hm)
  · intro m hm
    rcases List.mem_append.mp hm with h | h
    · exact List.mem_append_left _ (hmem m h)
    · simp only [List.mem_singleton] at h
      subst h
      exact List.mem_append_right _ (List.mem_singleton_self _)

lemma hist_step_inv (uid : String) (st : CollSt) (m : SlackMsg)
    (h : coll_inv st) : coll_inv (hist_step uid st m) := by
  unfold hist_step
  dsimp only
  split
  next hcond =>
    split
    next => exact ⟨h.1, h.2⟩
    next => exact coll_inv_append _ _ _ _ h.1 h.2 hcond.2
  next => exact ⟨h.1, h.2⟩

lemma thread_step_inv (uid : String) (oldest latest : Option ℚ) (root : ℚ)
    (st : CollSt) (m : SlackMsg) (h : coll_inv st) :
    coll_inv (thread_step uid oldest latest root st m) := by
  unfold thread_step
  split
  next => exact h
  next hskip =>
    split
    next => exact h
    next =>
      split
      next => exact h
      next =>
        split
        next => exact h
        next =>
          exact coll_inv_append _ _ _ _ h.1 h.2 (fun hc => hskip (Or.inr hc))

lemma foldl_inv {β : Type} (P : CollSt → Prop) (f : CollSt → β → CollSt)
    (hf : ∀ st b, P st → P (f st b)) :
    ∀ (l : List β) (st : CollSt), P st → P (l.foldl f st)
  | [], _, h => h
  | b :: l, st, h => foldl_inv P f hf l (f st b) (hf st b h)

lemma hist_loop_inv (uid : String) (pages : List Page) :
    ∀ st st', hist_loop uid st pages = some st' → coll_inv st → coll_inv st' := by
  induction pages with
  | nil =>
    intro st st' h hi
    simp only [hist_loop, Option.some.injEq] at h
    rwa [← h]
  | cons p rest ih =>
    intro st st' h hi
    rw [hist_loop] at h
    by_cases hok : p.ok
    · simp only [hok, if_true] at h
      have hmid : coll_inv (p.messages.foldl (hist_step uid) st) :=
        foldl_inv coll_inv _ (fun s m hs => hist_step_inv uid s m hs) _ _ hi
      by_cases hc : p.next_cursor
      · simp only [hc, if_true] at h
        exact ih _ _ h hmid
      · simp [hc] at h
        rwa [← h]
    · simp [hok] at h

lemma thread_loop_inv (uid : String) (oldest latest : Option ℚ) (root : ℚ)
    (pages : List Page) :
    ∀ st, coll_inv st → coll_inv (thread_loop uid oldest latest root st pages) := by
  induction pages with
  | nil => intro st hi; rwa [thread_loop]
  | cons p rest ih =>
    intro st hi
    rw [thread_loop]
    by_cases hok : p.ok
    · simp only [hok, if_true]
      have hmid : coll_inv (p.messages.foldl (thread_step uid oldest latest root) st) :=
        foldl_inv coll_inv _ (fun s m hs => thread_step_inv uid oldest latest root s m hs)
          _ _ hi
      by_cases hc : p.next_cursor
      · simp only [hc, if_true]
        exact ih _ hmid
      · simpa [hc]
    · simpa [hok]

/-- C2: for every conversation and every input message stream, the
sequence returned by the message collector contains no two messages with
the same identifier (`ts`); every identifier occurs at most once, so a
thread root collected in the history phase is never emitted again from a
thread's replies. -/
theorem c2_collector_ids_unique (user_id : String) (oldest latest : Option ℚ)
    (hist : List Page) (threads : ℚ → List Page) :
    ((fetch_user_messages_api user_id oldest latest hist threads).map Message.ts).Nodup ∧
    ∀ t : ℚ,
      ((fetch_user_messages_api user_id oldest latest hist threads).map Message.ts).count t
        ≤ 1 := by
  have key :
      ((fetch_user_messages_api user_id oldest latest hist threads).map Message.ts).Nodup := by
    unfold fetch_user_messages_api
    cases hh : hist_loop user_id init_coll_st hist with
    | none => simp
    | some st =>
      have h1 : coll_inv st :=
        hist_loop_inv user_id hist init_coll_st st hh ⟨List.nodup_nil, by simp [init_coll_st]⟩
      have h2 : coll_inv (st.thread_parents.foldl
          (fun s t => thread_loop user_id oldest latest t s (threads t)) st) :=
        foldl_inv coll_inv _
          (fun s t hs => thread_loop_inv user_id oldest latest t (threads t) s hs) _ _ h1
      exact h2.1
  exact ⟨key, fun t => List.nodup_iff_count_le_one.mp key t⟩

/-- The suffix of the last 500 entries, the normal form of `add_log`'s
capping. -/
def last500 (l : List LogEntry) : List LogEntry := l.drop (l.length - 500)

lemma add_log_eq (job : Job) (m : String) :
    add_log job m = { job with log := last500 (job.log ++ [⟨"", m⟩]) } := by
  unfold add_log last500
  by_cases h : (job.log ++ [(⟨"", m⟩ : LogEntry)]).length > 500
  · simp only [h, if_true]
  · simp only [h, if_false]
    have h0 : (job.log ++ [(⟨"", m⟩ : LogEntry)]).length - 500 = 0 := by omega
    rw [h0, List.drop_zero]

lemma last500_append (l m : List LogEntry) :
    last500 (last500 l ++ m) = last500 (l ++ m) := by
  unfold last500
  have hk : l.length - 500 ≤ l.length := Nat.sub_le _ _
  rw [← List.drop_append_of_le_length hk, List.drop_drop]
  have harith : l.length - 500 + (((l ++ m).drop (l.length - 500)).length - 500) =
      (l ++ m).length - 500 := by
    simp only [List.length_drop, List.length_append]
    omega
  rw [harith]

lemma foldl_add_log (msgs : List String) :
    ∀ job : Job, job.log.length ≤ 500 →
      msgs.foldl add_log job =
        { job with
          log := last500 (job.log ++ msgs.map (fun s => (⟨"", s⟩ : LogEntry))) } := by
  induction msgs with
  | nil =>
    intro job h
    have h0 : job.log.length - 500 = 0 := by omega
    simp only [List.foldl_nil, List.map_nil, List.append_nil, last500, h0, List.drop_zero]
  | cons s rest ih =>
    intro job h
    rw [List.foldl_cons, add_log_eq,
      ih _ (by simp only [last500, List.length_drop]; omega)]
    simp only [last500_append, List.append_assoc, List.map_cons, List.singleton_append]

/-- C6: starting from a fresh job log, after any number of appends the
stored log length never exceeds 500, and once more than 500 entries have
been appended the stored log is exactly the 500 most recent entries in
append order. -/
theorem c6_log_capped_at_500 (j : Job) (msgs : List String) :
    (msgs.foldl add_log { j with log := [] }).log.length ≤ 500 ∧
    (500 < msgs.length →
      (msgs.foldl add_log { j with log := [] }).log =
        (msgs.map (fun s => (⟨"", s⟩ : LogEntry))).drop (msgs.length - 500)) := by
  rw [foldl_add_log _ _ (by simp)]
  constructor
  · simp only [last500, List.nil_append, List.length_drop, List.length_map]
    omega
  · intro _
    simp only [last500, List.nil_append, List.length_map]

/-- C6 witness: 501 appends leave exactly the most recent 500 entries. -/
theorem c6_log_capped_at_500_witness :
    500 < (List.replicate 501 "x").length ∧
    ((List.replicate 501 "x").foldl add_log { init_job true with log := [] }).log =
      ((List.replicate 501 "x").map (fun s => (⟨"", s⟩ : LogEntry))).drop
        ((List.replicate 501 "x").length - 500) :=
  ⟨by rw [List.length_replicate]; omega,
   (c6_log_capped_at_500 (init_job true) (List.replicate 501 "x")).2
     (by rw [List.length_replicate]; omega)⟩

lemma slack_request_loop_rl (env : Nat → Attempt) (w : Nat → Nat) :
    ∀ (n k : Nat), (∀ j, k ≤ j → j < k + n → rate_limit_wait (env j) = some (w j)) →
      slack_request_loop env k n =
        (ReqResult.failure "max_retries", (List.range' k n).map w) := by
  intro n
  induction n with
  | zero => intro k _; simp [slack_request_loop]
  | succ n ih =>
    intro k h
    have hk : rate_limit_wait (env k) = some (w k) := h k le_rfl (by omega)
    have hrest : slack_request_loop env (k + 1) n =
        (ReqResult.failure "max_retries", (List.range' (k + 1) n).map w) :=
      ih (k + 1) (fun j h1 h2 => h j (by omega) (by omega))
    rw [slack_request_loop]
    cases he : env k with
    | envelope ok e ra =>
      cases ok with
      | true => rw [he] at hk; simp [rate_limit_wait] at hk
      | false =>
        rw [he] at hk
        by_cases hrl : e = "ratelimited"
        · subst hrl
          simp only [rate_limit_wait, if_true, Option.some.injEq] at hk
          simp only [if_true]
          rw [hrest, List.range'_succ, List.map_cons, hk]
        · simp [rate_limit_wait, hrl] at hk
    | http_error c ra msg =>
      rw [he] at hk
      by_cases h429 : c = 429
      · subst h429
        simp only [rate_limit_wait, if_true, Option.some.injEq] at hk
        simp only [if_true]
        rw [hrest, List.range'_succ, List.map_cons, hk]
      · simp [rate_limit_wait, h429] at hk

/-- C4: when every attempt yields a rate-limit signal (in-band
`ratelimited` or transport-level 429), `slack_request` sleeps each
server-specified wait, both signal types consume the same attempt budget,
and once the budget is exhausted the distinguished `max_retries` failure
is returned; the default budget is 3. -/
theorem c4_rate_limited_retries (env : Nat → Attempt) (retries : Nat) (w : Nat → Nat)
    (h : ∀ k, k < retries → rate_limit_wait (env k) = some (w k)) :
    slack_request env retries =
      (ReqResult.failure "max_retries", (List.range retries).map w) ∧
    (slack_request env retries).2.length = retries ∧
    slack_request_default_retries = 3 := by
  have key : slack_request env retries =
      (ReqResult.failure "max_retries", (List.range retries).map w) := by
    unfold slack_request
    rw [slack_request_loop_rl env w retries 0 (fun j _ h2 => h j (by omega)),
      ← List.range_eq_range']
  exact ⟨key, by rw [key]; simp, rfl⟩

set_option maxRecDepth 10000 in
/-- C4 witness: three attempts answered by an in-band `ratelimited` (wait
5) and then transport-level 429s (missing header, default wait 30) end in
the `max_retries` failure after sleeping 5, 30 and 30. -/
theorem c4_rate_limited_retries_witness :
    (∀ k, k < 3 → rate_limit_wait
        ((fun k => if k = 0 then Attempt.envelope false "ratelimited" (some 5)
                   else Attempt.http_error 429 none "HTTP Error 429") k) =
      some ((fun k => if k = 0 then 5 else 30) k)) ∧
    slack_request
        (fun k => if k = 0 then Attempt.envelope false "ratelimited" (some 5)
                  else Attempt.http_error 429 none "HTTP Error 429") 3 =
      (ReqResult.failure "max_retries", [5, 30, 30]) := by
  refine ⟨by decide, ?_⟩
  rw [(c4_rate_limited_retries
      (fun k => if k = 0 then Attempt.envelope false "ratelimited" (some 5)
                else Attempt.http_error 429 none "HTTP Error 429") 3
      (fun k => if k = 0 then 5 else 30) (by decide)).1]
  decide

lemma setStatus_not_mem_purge_message (s : String) (dry : Bool)
    (delete_result : String → ℚ → DeleteOutcome) (fmt_time : ℚ → String)
    (ch_id : String) (msg : Message) :
    Act.setStatus s ∉ purge_message dry delete_result fmt_time ch_id msg := by
  unfold purge_message
  cases dry with
  | true => simp
  | false => cases delete_result ch_id msg.ts <;> simp

lemma setStatus_not_mem_purge_conversation (s : String) (dry : Bool)
    (delete_result : String → ℚ → DeleteOutcome) (fmt_time : ℚ → String)
    (i : Nat) (conv : Conv) (msgs : List Message) :
    Act.setStatus s ∉ purge_conversation dry delete_result fmt_time i conv msgs := by
  unfold purge_conversation
  intro h
  rcases List.mem_append.mp h with h | h
  · simp at h
  · split at h
    · simp at h
    · rcases List.mem_append.mp h with h | h
      · simp at h
      · rw [List.mem_flatten] at h
        obtain ⟨l, hl, hmem⟩ := h
        rw [List.mem_map] at hl
        obtain ⟨msg, _, rfl⟩ := hl
        exact setStatus_not_mem_purge_message s dry delete_result fmt_time conv.id msg hmem

lemma setStatus_not_mem_run_purge_body (s : String) (user_id : String)
    (oldest latest : Option ℚ) (dry_run : Bool) (conversations : List Conv)
    (filter_channels : List String) (hist : String → List Page)
    (threads : String → ℚ → List Page)
    (delete_result : String → ℚ → DeleteOutcome) (fmt_time : ℚ → String) :
    Act.setStatus s ∉ run_purge_body user_id oldest latest dry_run conversations
      filter_channels hist threads delete_result fmt_time := by
  unfold run_purge_body
  intro h
  rcases List.mem_append.mp h with h | h
  · simp at h
  · rw [List.mem_flatten] at h
    obtain ⟨l, hl, hmem⟩ := h
    rw [List.mem_map] at hl
    obtain ⟨p, _, rfl⟩ := hl
    exact setStatus_not_mem_purge_conversation s dry_run delete_result fmt_time
      p.1 p.2 _ hmem

/-- C3 counterexample: on a run with no conversations (dry run), the trace
of job mutations sets the terminal status `completed` at position 3 and
afterwards still appends the final summary log line at position 4, so the
job record is mutated after its status takes a terminal value. -/
theorem c3_log_appended_after_terminal :
    (run_purge_acts "u" none none true [] [] (fun _ => []) (fun _ _ => [])
        (fun _ _ => DeleteOutcome.ok) (fun _ => ""))[3]? =
      some (Act.setStatus "completed") ∧
    (run_purge_acts "u" none none true [] [] (fun _ => []) (fun _ _ => [])
        (fun _ _ => DeleteOutcome.ok) (fun _ => ""))[4]? =
      some (Act.appendLog "✅ DRY RUN concluído: 0 mensagens encontradas, 0 erros") :=
  ⟨rfl, rfl⟩

/-- C3 (amended): on either terminal transition exactly one further
mutation occurs — the log append that immediately follows it (the final
summary on the completed path, the fatal-error line on the error path) —
and no status change, counter update or other log append; in both traces
the terminal transition is also the only status mutation, since no act of
the body trace (nor, a fortiori, of the prefix of it performed before an
exception) is a status mutation. -/
theorem c3_terminal_then_only_summary_log (user_id : String)
    (oldest latest : Option ℚ) (dry_run : Bool) (conversations : List Conv)
    (filter_channels : List String) (hist : String → List Page)
    (threads : String → ℚ → List Page)
    (delete_result : String → ℚ → DeleteOutcome) (fmt_time : ℚ → String)
    (k : Nat) (e : String) :
    (∀ s, Act.setStatus s ∉ run_purge_body user_id oldest latest dry_run
        conversations filter_channels hist threads delete_result fmt_time) ∧
    run_purge_acts user_id oldest latest dry_run conversations filter_channels
        hist threads delete_result fmt_time =
      run_purge_body user_id oldest latest dry_run conversations filter_channels
          hist threads delete_result fmt_time ++
        [Act.setStatus "completed",
         Act.appendLog (run_purge_summary dry_run
            ((run_purge_body user_id oldest latest dry_run conversations
                filter_channels hist threads delete_result fmt_time).count
              Act.incDeleted)
            ((run_purge_body user_id oldest latest dry_run conversations
                filter_channels hist threads delete_result fmt_time).count
              Act.incErrors))] ∧
    (∀ s, Act.setStatus s ∉ (run_purge_body user_id oldest latest dry_run
        conversations filter_channels hist threads delete_result fmt_time).take k) ∧
    run_purge_error_acts user_id oldest latest dry_run conversations
        filter_channels hist threads delete_result fmt_time k e =
      (run_purge_body user_id oldest latest dry_run conversations filter_channels
          hist threads delete_result fmt_time).take k ++
        [Act.setStatus "error", Act.appendLog (run_purge_fatal e)] :=
  ⟨fun s => setStatus_not_mem_run_purge_body s user_id oldest latest dry_run
      conversations filter_channels hist threads delete_result fmt_time,
   rfl,
   fun s hmem => setStatus_not_mem_run_purge_body s user_id oldest latest dry_run
      conversations filter_channels hist threads delete_result fmt_time
      (List.take_subset k _ hmem),
   rfl⟩

lemma nondestructive_of_mem_purge_message_dry (a : Act)
    (delete_result : String → ℚ → DeleteOutcome) (fmt_time : ℚ → String)
    (ch_id : String) (msg : Message)
    (h : a ∈ purge_message true delete_result fmt_time ch_id msg) :
    (∀ c t, a ≠ Act.deleteCall c t) ∧ a ≠ Act.sleepDelete := by
  unfold purge_message at h
  simp only [if_true, List.mem_cons, List.mem_singleton, List.not_mem_nil,
    or_false] at h
  rcases h with h | h <;> subst h <;> simp

lemma nondestructive_of_mem_run_dry (a : Act) (user_id : String)
    (oldest latest : Option ℚ) (conversations : List Conv)
    (filter_channels : List String) (hist : String → List Page)
    (threads : String → ℚ → List Page)
    (delete_result : String → ℚ → DeleteOutcome) (fmt_time : ℚ → String)
    (ha : a ∈ run_purge_acts user_id oldest latest true conversations
      filter_channels hist threads delete_result fmt_time) :
    (∀ c t, a ≠ Act.deleteCall c t) ∧ a ≠ Act.sleepDelete := by
  unfold run_purge_acts at ha
  rcases List.mem_append.mp ha with h | h
  · unfold run_purge_body at h
    rcases List.mem_append.mp h with h | h
    · simp only [List.mem_cons, List.mem_singleton, List.not_mem_nil, or_false] at h
      rcases h with h | h | h <;> subst h <;> simp
    · rw [List.mem_flatten] at h
      obtain ⟨l, hl, hmem⟩ := h
      rw [List.mem_map] at hl
      obtain ⟨p, _, rfl⟩ := hl
      unfold purge_conversation at hmem
      rcases List.mem_append.mp hmem with h | h
      · simp only [List.mem_cons, List.mem_singleton, List.not_mem_nil, or_false] at h
        rcases h with h | h <;> subst h <;> simp
      · split at h
        · simp at h
        · rcases List.mem_append.mp h with h | h
          · simp only [List.mem_cons, List.mem_singleton, List.not_mem_nil,
              or_false] at h
            rcases h with h | h <;> subst h <;> simp
          · rw [List.mem_flatten] at h
            obtain ⟨l2, hl2, hmem2⟩ := h
            rw [List.mem_map] at hl2
            obtain ⟨msg, _, rfl⟩ := hl2
            exact nondestructive_of_mem_purge_message_dry a delete_result fmt_time
              p.2.id msg hmem2
  · simp only [List.mem_cons, List.mem_singleton, List.not_mem_nil, or_false] at h
    rcases h with h | h <;> subst h <;> simp

/-- C1: with `dry_run` true the executor handles each message by exactly
one `messages_deleted` increment followed by one preview log append,
issues no delete call and performs no delete-pacing sleep — indeed a whole
dry run contains no delete call and no delete-pacing sleep — while on the
destructive path the pacing sleep is performed for every message. -/
theorem c1_dry_run_previews_without_delete_or_sleep
    (delete_result : String → ℚ → DeleteOutcome) (fmt_time : ℚ → String)
    (ch_id : String) (msg : Message) (user_id : String)
    (oldest latest : Option ℚ) (conversations : List Conv)
    (filter_channels : List String) (hist : String → List Page)
    (threads : String → ℚ → List Page) :
    (∃ s, purge_message true delete_result fmt_time ch_id msg =
        [Act.incDeleted, Act.appendLog s]) ∧
    (∀ c t, Act.deleteCall c t ∉ purge_message true delete_result fmt_time ch_id msg) ∧
    Act.sleepDelete ∉ purge_message true delete_result fmt_time ch_id msg ∧
    Act.sleepDelete ∈ purge_message false delete_result fmt_time ch_id msg ∧
    (∀ a ∈ run_purge_acts user_id oldest latest true conversations
        filter_channels hist threads delete_result fmt_time,
      (∀ c t, a ≠ Act.deleteCall c t) ∧ a ≠ Act.sleepDelete) := by
  refine ⟨⟨_, rfl⟩, ?_, ?_, ?_, ?_⟩
  · intro c t h
    exact ((nondestructive_of_mem_purge_message_dry _ _ _ _ _ h).1 c t) rfl
  · intro h
    exact (nondestructive_of_mem_purge_message_dry _ _ _ _ _ h).2 rfl
  · unfold purge_message
    cases delete_result ch_id msg.ts <;> simp
  · intro a ha
    exact nondestructive_of_mem_run_dry a user_id oldest latest conversations
      filter_channels hist threads delete_result fmt_time ha

/-- C7: in a non-dry-run job a failed delete increments `errors` by
exactly one, does not count the message in `messages_deleted`, and the
run still ends with status `completed` (the model of the exception-free
path always does). -/
theorem c7_delete_failure_does_not_abort (user_id : String)
    (oldest latest : Option ℚ) (conversations : List Conv)
    (filter_channels : List String) (hist : String → List Page)
    (threads : String → ℚ → List Page)
    (delete_result : String → ℚ → DeleteOutcome) (fmt_time : ℚ → String)
    (ch_id : String) (msg : Message) (code : String)
    (hfail : delete_result ch_id msg.ts = DeleteOutcome.err code) :
    (purge_message false delete_result fmt_time ch_id msg).count Act.incErrors = 1 ∧
    (purge_message false delete_result fmt_time ch_id msg).count Act.incDeleted = 0 ∧
    (run_purge_final user_id oldest latest false conversations filter_channels
        hist threads delete_result fmt_time).status = "completed" := by
  have hstatus : ∀ (j : Job) (s : String), (add_log j s).status = j.status :=
    fun _ _ => rfl
  refine ⟨?_, ?_, ?_⟩
  · unfold purge_message
    rw [hfail]
    simp [List.count_cons]
  · unfold purge_message
    rw [hfail]
    simp [List.count_cons]
  · unfold run_purge_final run_purge_acts
    rw [List.foldl_append]
    simp only [List.foldl_cons, List.foldl_nil, apply_act, hstatus]

/-- C7 witness: a concrete one-shot failing delete. -/
theorem c7_delete_failure_does_not_abort_witness :
    (purge_message false (fun _ _ => DeleteOutcome.err "cant_delete_message")
        (fun _ => "") "C1" ⟨1, "hi", none, false⟩).count Act.incErrors = 1 ∧
    (purge_message false (fun _ _ => DeleteOutcome.err "cant_delete_message")
        (fun _ => "") "C1" ⟨1, "hi", none, false⟩).count Act.incDeleted = 0 ∧
    (run_purge_final "u" none none false [] [] (fun _ => []) (fun _ _ => [])
        (fun _ _ => DeleteOutcome.err "cant_delete_message") (fun _ => "")).status =
      "completed" :=
  c7_delete_failure_does_not_abort "u" none none [] [] (fun _ => []) (fun _ _ => [])
    (fun _ _ => DeleteOutcome.err "cant_delete_message") (fun _ => "") "C1"
    ⟨1, "hi", none, false⟩ "cant_delete_message" rfl

/-- C5: with both window bounds given, the collector's filtering is
inclusive: a reply whose timestamp equals `oldest` or `latest` passes the
phase-2 local comparisons and is collected, while one a unit of timestamp
precision (10⁻⁶, Slack's microsecond resolution) below `oldest` or above
`latest` is skipped; and the phase-1 history request carries `oldest`,
`latest` and `inclusive = true`. -/
theorem c5_window_bounds_inclusive (o l : ℚ) (uid ch_id : String)
    (cursor : Option String) (root : ℚ) (st : CollSt) (m : SlackMsg)
    (hol : o ≤ l) (hu : m.user = uid) (hseen : m.ts ∉ st.seen_ts)
    (hroot : m.ts ≠ root) :
    ((m.ts = o ∨ m.ts = l) →
      (thread_step uid (some o) (some l) root st m).user_messages =
        st.user_messages ++
          [{ ts := m.ts, text := m.text.take 100, thread_ts := some root,
             is_thread_reply := true }]) ∧
    (m.ts = o - 1 / 1000000 → thread_step uid (some o) (some l) root st m = st) ∧
    (m.ts = l + 1 / 1000000 → thread_step uid (some o) (some l) root st m = st) ∧
    (history_params ch_id (some o) (some l) cursor).oldest = some o ∧
    (history_params ch_id (some o) (some l) cursor).latest = some l ∧
    (history_params ch_id (some o) (some l) cursor).inclusive = true := by
  have hno : ¬(m.ts = root ∨ m.ts ∈ st.seen_ts) := by
    push_neg
    exact ⟨hroot, hseen⟩
  refine ⟨?_, ?_, ?_, rfl, rfl, rfl⟩
  · intro hts
    have h1 : ¬(m.ts < o) := by
      rcases hts with h | h <;> rw [h]
      · exact lt_irrefl o
      · exact not_lt.mpr hol
    have h2 : ¬(l < m.ts) := by
      rcases hts with h | h <;> rw [h]
      · exact not_lt.mpr hol
      · exact lt_irrefl l
    simp [thread_step, below_oldest, above_latest, hno, hu, h1, h2]
  · intro hts
    have h1 : m.ts < o := by
      rw [hts]
      have : (0 : ℚ) < 1 / 1000000 := by norm_num
      linarith
    simp [thread_step, below_oldest, above_latest, hno, hu, h1]
  · intro hts
    have h1 : ¬(m.ts < o) := by
      rw [hts]
      have : (0 : ℚ) < 1 / 1000000 := by norm_num
      push_neg
      linarith
    have h2 : l < m.ts := by
      rw [hts]
      have : (0 : ℚ) < 1 / 1000000 := by norm_num
      linarith
    simp [thread_step, below_oldest, above_latest, hno, hu, h1, h2]

/-- C5 witness: bounds 1 and 2, a reply exactly at the lower bound is
collected, with the parameter facts, instantiated concretely. -/
theorem c5_window_bounds_inclusive_witness :
    (((1 : ℚ) = 1 ∨ (1 : ℚ) = 2) →
      (thread_step "u" (some 1) (some 2) 99 init_coll_st
          ⟨1, "u", "hello", "", 0, none⟩).user_messages =
        init_coll_st.user_messages ++
          [{ ts := 1, text := "hello".take 100, thread_ts := some 99,
             is_thread_reply := true }]) ∧
    ((1 : ℚ) = 1 - 1 / 1000000 →
      thread_step "u" (some 1) (some 2) 99 init_coll_st
        ⟨1, "u", "hello", "", 0, none⟩ = init_coll_st) ∧
    ((1 : ℚ) = 2 + 1 / 1000000 →
      thread_step "u" (some 1) (some 2) 99 init_coll_st
        ⟨1, "u", "hello", "", 0, none⟩ = init_coll_st) ∧
    (history_params "C" (some 1) (some 2) none).oldest = some 1 ∧
    (history_params "C" (some 1) (some 2) none).latest = some 2 ∧
    (history_params "C" (some 1) (some 2) none).inclusive = true :=
  c5_window_bounds_inclusive 1 2 "u" "C" none 99 init_coll_st
    ⟨1, "u", "hello", "", 0, none⟩ (by norm_num) rfl (by simp [init_coll_st])
    (by norm_num)

lemma hist_loop_fail (uid : String) :
    ∀ (good : List Page) (st : CollSt) (bad : Page) (rest : List Page),
      (∀ p ∈ good, p.ok = true ∧ p.next_cursor = true) → bad.ok = false →
      hist_loop uid st (good ++ bad :: rest) = none := by
  intro good
  induction good with
  | nil =>
    intro st bad rest _ hbad
    rw [List.nil_append, hist_loop]
    simp [hbad]
  | cons p ps ih =>
    intro st bad rest hgood hbad
    have h1 := hgood p (List.mem_cons_self _ _)
    rw [List.cons_append, hist_loop]
    simp only [h1.1, h1.2, if_true]
    exact ih _ bad rest (fun q hq => hgood q (List.mem_cons_of_mem _ hq)) hbad

/-- C9: the two pagination phases treat a failed page asymmetrically — a
failed history page makes the collector return the empty list, discarding
everything already gathered, while a failed thread-replies page only
stops that thread's traversal and keeps the state (hence the messages)
collected so far. -/
theorem c9_page_failure_asymmetry (uid : String) (oldest latest : Option ℚ)
    (good : List Page) (bad : Page) (rest : List Page) (threads : ℚ → List Page)
    (root : ℚ) (st : CollSt) (tail : List Page)
    (hgood : ∀ p ∈ good, p.ok = true ∧ p.next_cursor = true)
    (hbad : bad.ok = false) :
    fetch_user_messages_api uid oldest latest (good ++ bad :: rest) threads = [] ∧
    thread_loop uid oldest latest root st (bad :: tail) = st := by
  constructor
  · unfold fetch_user_messages_api
    rw [hist_loop_fail uid good init_coll_st bad rest hgood hbad]
  · rw [thread_loop]
    simp [hbad]

/-- C9 witness: one successful history page full of the user's messages
followed by a failed page yields the empty list; a failed replies page
leaves a non-empty collector state untouched. -/
theorem c9_page_failure_asymmetry_witness :
    fetch_user_messages_api "u" none none
        ([⟨true, [⟨1, "u", "hello", "", 0, none⟩], true⟩] ++
          (⟨false, [], false⟩ : Page) :: []) (fun _ => []) = [] ∧
    thread_loop "u" none none 7
        ⟨[{ ts := 1, text := "hello", thread_ts := none, is_thread_reply := false }],
          [], [1]⟩ ((⟨false, [], false⟩ : Page) :: []) =
      ⟨[{ ts := 1, text := "hello", thread_ts := none, is_thread_reply := false }],
        [], [1]⟩ :=
  c9_page_failure_asymmetry "u" none none
    [⟨true, [⟨1, "u", "hello", "", 0, none⟩], true⟩] ⟨false, [], false⟩ []
    (fun _ => []) 7
    ⟨[{ ts := 1, text := "hello", thread_ts := none, is_thread_reply := false }],
      [], [1]⟩ []
    (by intro p hp; simp at hp; rw [hp]; exact ⟨rfl, rfl⟩) rfl

set_option maxRecDepth 10000 in
/-- C10: the system-subtype skip applies only in the history phase — a
thread reply authored by the identity that carries a system subtype is
still collected in phase 2 (whose filter never reads the subtype), while
the same message is skipped by the history-phase step without being
collected or marked seen. -/
theorem c10_subtype_skip_only_in_history (uid : String) (oldest latest : Option ℚ)
    (root : ℚ) (st : CollSt) (m : SlackMsg)
    (hsub : m.subtype ∈ system_subtypes) (hu : m.user = uid)
    (hseen : m.ts ∉ st.seen_ts) (hroot : m.ts ≠ root)
    (ho : below_oldest oldest m.ts = false) (hl : above_latest latest m.ts = false) :
    (thread_step uid oldest latest root st m).user_messages =
      st.user_messages ++
        [{ ts := m.ts, text := m.text.take 100, thread_ts := some root,
           is_thread_reply := true }] ∧
    (∀ s : String, thread_step uid oldest latest root st { m with subtype := s } =
        thread_step uid oldest latest root st m) ∧
    (hist_step uid st m).user_messages = st.user_messages ∧
    (hist_step uid st m).seen_ts = st.seen_ts := by
  have hno : ¬(m.ts = root ∨ m.ts ∈ st.seen_ts) := by
    push_neg
    exact ⟨hroot, hseen⟩
  refine ⟨?_, fun s => rfl, ?_, ?_⟩
  · simp [thread_step, hno, hu, ho, hl]
  · simp [hist_step, hu, hseen, hsub]
  · simp [hist_step, hu, hseen, hsub]

set_option maxRecDepth 10000 in
/-- C10 witness: a `channel_join` reply by the identity, inside an
unbounded window. -/
theorem c10_subtype_skip_only_in_history_witness :
    (thread_step "u" none none 1 init_coll_st
        ⟨5, "u", "joined", "channel_join", 0, some 1⟩).user_messages =
      init_coll_st.user_messages ++
        [{ ts := 5, text := "joined".take 100, thread_ts := some 1,
           is_thread_reply := true }] ∧
    (∀ s : String,
      thread_step "u" none none 1 init_coll_st
          { (⟨5, "u", "joined", "channel_join", 0, some 1⟩ : SlackMsg) with
            subtype := s } =
        thread_step "u" none none 1 init_coll_st
          ⟨5, "u", "joined", "channel_join", 0, some 1⟩) ∧
    (hist_step "u" init_coll_st
        ⟨5, "u", "joined", "channel_join", 0, some 1⟩).user_messages =
      init_coll_st.user_messages ∧
    (hist_step "u" init_coll_st
        ⟨5, "u", "joined", "channel_join", 0, some 1⟩).seen_ts =
      init_coll_st.seen_ts :=
  c10_subtype_skip_only_in_history "u" none none 1 init_coll_st
    ⟨5, "u", "joined", "channel_join", 0, some 1⟩ (by decide) rfl
    (by simp [init_coll_st]) (by norm_num) rfl rfl

lemma py_slice_from_neg {α : Type} (l : List α) (N : Int) (h : 1 ≤ N) :
    py_slice_from l (-N) = l.drop (l.length - N.toNat) := by
  unfold py_slice_from
  have hneg : ¬(0 ≤ -N) := by omega
  simp only [hneg, if_false, neg_neg]

/-- C8 counterexample: polling an existing job whose log has one entry
with requested tail length `N = 0` returns the whole log (one entry),
not `min(0, 1) = 0` entries, because Python's `log[-0:]` slice is the
entire list. -/
theorem c8_tail_zero_returns_whole_log :
    (api_purge_status [("j", { init_job true with log := [⟨"", "hello"⟩] })] "j"
        (some 0)).map (fun s => s.log.length) = some 1 ∧
    min ((0 : Int).toNat) 1 ≠ 1 :=
  ⟨rfl, by decide⟩

/-- C8 (amended): for every status poll of an existing job with requested
log tail length `N ≥ 1` (default 50 when the parameter is absent), the
snapshot carries exactly the `min(N, log length)` most recent log entries
in order; an unknown job identifier yields the not-found failure and no
snapshot.  (For `N ≤ 0` the code instead returns `log[-N:]`; at `N = 0`
that is the entire log.) -/
theorem c8_status_poll_tail (jobs : List (String × Job)) (job_id : String)
    (j : Job) (N : Int) (hN : 1 ≤ N) :
    (jobs.lookup job_id = none → ∀ n, api_purge_status jobs job_id n = none) ∧
    (jobs.lookup job_id = some j →
      api_purge_status jobs job_id (some N) = some
        { status := j.status, progress := j.progress,
          total_conversations := j.total_conversations,
          current_conversation := j.current_conversation,
          messages_found := j.messages_found,
          messages_deleted := j.messages_deleted,
          errors := j.errors, dry_run := j.dry_run,
          log := j.log.drop (j.log.length - N.toNat) } ∧
      (api_purge_status jobs job_id (some N)).map (fun s => s.log.length) =
        some (min N.toNat j.log.length)) ∧
    api_purge_status jobs job_id none = api_purge_status jobs job_id (some 50) := by
  refine ⟨?_, ?_, rfl⟩
  · intro h n
    simp [api_purge_status, h]
  · intro h
    have hs : py_slice_from j.log (-(N : Int)) = j.log.drop (j.log.length - N.toNat) :=
      py_slice_from_neg j.log N hN
    constructor
    · simp only [api_purge_status, h, Option.getD_some]
      rw [hs]
    · simp [api_purge_status, h, hs, List.length_drop]
      omega

/-- C8 witness: a two-entry log polled with tail length 1 returns the one
most recent entry; an unknown id returns nothing. -/
theorem c8_status_poll_tail_witness :
    api_purge_status [("a", { init_job true with log := [⟨"", "one"⟩, ⟨"", "two"⟩] })]
        "a" (some 1) = some
      { status := "running", progress := 0, total_conversations := 0,
        current_conversation := "", messages_found := 0, messages_deleted := 0,
        errors := 0, dry_run := true,
        log := ([⟨"", "one"⟩, ⟨"", "two"⟩] : List LogEntry).drop
          (([⟨"", "one"⟩, ⟨"", "two"⟩] : List LogEntry).length - (1 : Int).toNat) } ∧
    (api_purge_status [("a", { init_job true with log := [⟨"", "one"⟩, ⟨"", "two"⟩] })]
        "a" (some 1)).map (fun s => s.log.length) =
      some (min (1 : Int).toNat ([⟨"", "one"⟩, ⟨"", "two"⟩] : List LogEntry).length) :=
  (c8_status_poll_tail [("a", { init_job true with log := [⟨"", "one"⟩, ⟨"", "two"⟩] })]
    "a" { init_job true with log := [⟨"", "one"⟩, ⟨"", "two"⟩] } 1 (by norm_num)).2.1
    rfl

end SlackPurge
